import Mathlib

/-!
# DigiSigini signing-and-verification engine: a shallow embedding

This file embeds the signing/verification core of the DigiSigini repository
(`src/utils/crypto.ts` together with the `handleSign` / `handleVerify`
orchestration handlers of the sign and verify pages) into Lean 4 and proves
the specification's claims about it.

Byte strings are modelled as `List Nat` with every element `< 256`.  The
browser platform primitives the source calls (`btoa`/`atob`,
`TextEncoder.encode`, `crypto.subtle.digest` with SHA-256) are modelled
concretely and executably; the asymmetric primitive (`crypto.subtle`'s
RSASSA-PKCS1-v1_5 `generateKey`/`importKey`/`sign`/`verify`) is an external
platform collaborator and is modelled as an explicit structure
(`SubtleCrypto`) over which the repository-level functions are parameterised,
together with the contract (`RsassaContract`) the Web Crypto API guarantees
for it.
-/

namespace DigiSigini

/-! ## Base64 (the platform `btoa` / `atob` pair)

`btoaBytes` composes the source's `arrayBufferToBase64` loop (which turns the
byte buffer into a binary string via `String.fromCharCode`) with the platform
`btoa`; `atobBytes` composes the platform `atob` with `base64ToArrayBuffer`'s
`charCodeAt` loop.  `atob` implements WHATWG forgiving-base64 decode (modulo
ASCII-whitespace stripping, which no input in this development contains):
a final quantum of two or three characters may appear unpadded or completed
with `=`, a quantum of one character is an error, and any character outside
the alphabet (including a misplaced `=`) is an error, reported here as
`none` where the platform throws `InvalidCharacterError`. -/

/-- The standard base64 alphabet, in index order. -/
def b64Alphabet : List Char :=
  "ABCDEFGHIJKLMNOPQRSTUVWXYZabcdefghijklmnopqrstuvwxyz0123456789+/".toList

/-- The character encoding a sextet. -/
def b64Char (n : Nat) : Char := b64Alphabet.getD n '?'

/-- The sextet encoded by a character, `none` outside the alphabet. -/
def b64Index (c : Char) : Option Nat := b64Alphabet.findIdx? (· == c)

/-- `btoa` on a byte list: 3-byte groups become 4 characters, a trailing
group of 1 or 2 bytes is padded with `=`. -/
def btoaBytes : List Nat → List Char
  | [] => []
  | [b1] => [b64Char (b1 / 4), b64Char (b1 % 4 * 16), '=', '=']
  | [b1, b2] => [b64Char (b1 / 4), b64Char (b1 % 4 * 16 + b2 / 16), b64Char (b2 % 16 * 4), '=']
  | b1 :: b2 :: b3 :: rest =>
      b64Char (b1 / 4) :: b64Char (b1 % 4 * 16 + b2 / 16) ::
      b64Char (b2 % 16 * 4 + b3 / 64) :: b64Char (b3 % 64) :: btoaBytes rest

/-- Decode a final quantum of two characters (one byte, extra bits
discarded). -/
def atobTail2 (c1 c2 : Char) : Option (List Nat) := do
  let n1 ← b64Index c1
  let n2 ← b64Index c2
  some [n1 * 4 + n2 / 16]

/-- Decode a final quantum of three characters (two bytes, extra bits
discarded). -/
def atobTail3 (c1 c2 c3 : Char) : Option (List Nat) := do
  let n1 ← b64Index c1
  let n2 ← b64Index c2
  let n3 ← b64Index c3
  some [n1 * 4 + n2 / 16, n2 % 16 * 16 + n3 / 4]

/-- `atob` on a character list (forgiving-base64 decode, see above). -/
def atobBytes : List Char → Option (List Nat)
  | [] => some []
  | [_] => none
  | [c1, c2] => atobTail2 c1 c2
  | [c1, c2, c3] => atobTail3 c1 c2 c3
  | [c1, c2, c3, c4] =>
      if c4 = '=' then
        if c3 = '=' then atobTail2 c1 c2 else atobTail3 c1 c2 c3
      else do
        let n1 ← b64Index c1
        let n2 ← b64Index c2
        let n3 ← b64Index c3
        let n4 ← b64Index c4
        some [n1 * 4 + n2 / 16, n2 % 16 * 16 + n3 / 4, n3 % 4 * 64 + n4]
  | c1 :: c2 :: c3 :: c4 :: rest => do
      let n1 ← b64Index c1
      let n2 ← b64Index c2
      let n3 ← b64Index c3
      let n4 ← b64Index c4
      let tl ← atobBytes rest
      some ([n1 * 4 + n2 / 16, n2 % 16 * 16 + n3 / 4, n3 % 4 * 64 + n4] ++ tl)

/-- `arrayBufferToBase64` from `src/utils/crypto.ts`: bytes to a base64
string (the binary-string intermediate is fused away). -/
def arrayBufferToBase64 (buffer : List Nat) : String := ⟨btoaBytes buffer⟩

/-- `base64ToArrayBuffer` from `src/utils/crypto.ts`: base64 string to bytes;
`none` models the `InvalidCharacterError` the platform `atob` throws. -/
def base64ToArrayBuffer (base64 : String) : Option (List Nat) :=
  atobBytes base64.toList

theorem b64Index_b64Char : ∀ n < 64, b64Index (b64Char n) = some n := by decide

theorem b64Char_ne_pad : ∀ n < 64, b64Char n ≠ '=' := by decide

theorem btoaBytes_ne_nil (l : List Nat) (h : l ≠ []) :
    ∃ hd tl, btoaBytes l = hd :: tl := by
  match l with
  | [] => exact absurd rfl h
  | [b1] => exact ⟨_, _, rfl⟩
  | [b1, b2] => exact ⟨_, _, rfl⟩
  | b1 :: b2 :: b3 :: rest => exact ⟨_, _, rfl⟩

/-- Decoding recovers every encoded byte list: the round trip underlying the
repository's base64 plumbing. -/
theorem atobBytes_btoaBytes : ∀ (l : List Nat), (∀ b ∈ l, b < 256) →
    atobBytes (btoaBytes l) = some l := by
  intro l
  induction l using btoaBytes.induct with
  | case1 =>
      intro _; simp [btoaBytes, atobBytes]
  | case2 b1 =>
      intro h
      have hb1 : b1 < 256 := h b1 (by simp)
      have h1 : b1 / 4 < 64 := by omega
      have h2 : b1 % 4 * 16 < 64 := by omega
      simp [btoaBytes, atobBytes, atobTail2, b64Index_b64Char _ h1, b64Index_b64Char _ h2]
      omega
  | case3 b1 b2 =>
      intro h
      have hb1 : b1 < 256 := h b1 (by simp)
      have hb2 : b2 < 256 := h b2 (by simp)
      have h1 : b1 / 4 < 64 := by omega
      have h2 : b1 % 4 * 16 + b2 / 16 < 64 := by omega
      have h3 : b2 % 16 * 4 < 64 := by omega
      have hne : b64Char (b2 % 16 * 4) ≠ '=' := b64Char_ne_pad _ h3
      simp [btoaBytes, atobBytes, atobTail3, hne, b64Index_b64Char _ h1, b64Index_b64Char _ h2,
        b64Index_b64Char _ h3]
      omega
  | case4 b1 b2 b3 rest ih =>
      intro h
      have hb1 : b1 < 256 := h b1 (by simp)
      have hb2 : b2 < 256 := h b2 (by simp)
      have hb3 : b3 < 256 := h b3 (by simp)
      have hrest : ∀ b ∈ rest, b < 256 := fun b hb => h b (by simp [hb])
      have h1 : b1 / 4 < 64 := by omega
      have h2 : b1 % 4 * 16 + b2 / 16 < 64 := by omega
      have h3 : b2 % 16 * 4 + b3 / 64 < 64 := by omega
      have h4 : b3 % 64 < 64 := by omega
      -- The encoded tail is either empty (final quantum) or another full group.
      cases rest with
      | nil =>
          have hne : b64Char (b3 % 64) ≠ '=' := b64Char_ne_pad _ h4
          simp [btoaBytes, atobBytes, hne, b64Index_b64Char _ h1, b64Index_b64Char _ h2,
            b64Index_b64Char _ h3, b64Index_b64Char _ h4]
          omega
      | cons r1 rs =>
          obtain ⟨hd, tl, heq⟩ := btoaBytes_ne_nil (r1 :: rs) (by simp)
          have ihr := ih hrest
          rw [heq] at ihr
          have hexp : btoaBytes (b1 :: b2 :: b3 :: r1 :: rs) =
              b64Char (b1 / 4) :: b64Char (b1 % 4 * 16 + b2 / 16) ::
              b64Char (b2 % 16 * 4 + b3 / 64) :: b64Char (b3 % 64) ::
              (hd :: tl) := by rw [← heq]; rfl
          rw [hexp]
          simp [atobBytes, b64Index_b64Char _ h1, b64Index_b64Char _ h2,
            b64Index_b64Char _ h3, b64Index_b64Char _ h4, ihr]
          omega

/-! ## UTF-8 (the platform `TextEncoder`)

Both `signData`/`verifySignature` and `generateHash` feed
`new TextEncoder().encode(data)` — the UTF-8 bytes of the string — to the
cryptographic primitive.  `utf8Encode` is that encoder. -/

/-- UTF-8 encoding of one code point. -/
def utf8EncodeChar (c : Char) : List Nat :=
  let n := c.toNat
  if n < 128 then [n]
  else if n < 2048 then [192 + n / 64, 128 + n % 64]
  else if n < 65536 then [224 + n / 4096, 128 + n / 64 % 64, 128 + n % 64]
  else [240 + n / 262144, 128 + n / 4096 % 64, 128 + n / 64 % 64, 128 + n % 64]

/-- `TextEncoder.encode`: the UTF-8 bytes of a string. -/
def utf8Encode (s : String) : List Nat := (s.toList.map utf8EncodeChar).flatten

/-! ## SHA-256 (the platform `crypto.subtle.digest('SHA-256', _)`)

A complete, executable FIPS 180-4 SHA-256 over byte lists.  Words are `Nat`
reduced mod `2^32` by `w32`. -/

/-- Truncation to a 32-bit word. -/
def w32 (n : Nat) : Nat := n % 4294967296

/-- Right rotation of a 32-bit word. -/
def rotr (k x : Nat) : Nat := w32 (x >>> k ||| x <<< (32 - k))

/-- Bitwise complement of a 32-bit word. -/
def bnot32 (x : Nat) : Nat := 4294967295 - x % 4294967296

/-- The eight working variables / hash state. -/
structure Hash8 where
  a : Nat
  b : Nat
  c : Nat
  d : Nat
  e : Nat
  f : Nat
  g : Nat
  h : Nat
deriving DecidableEq

/-- SHA-256 initial hash value. -/
def sha256InitH : Hash8 :=
  ⟨1779033703, 3144134277, 1013904242, 2773480762,
   1359893119, 2600822924, 528734635, 1541459225⟩

/-- SHA-256 round constants. -/
def sha256K : List Nat :=
  [1116352408, 1899447441, 3049323471, 3921009573, 961987163, 1508970993,
   2453635748, 2870763221, 3624381080, 310598401, 607225278, 1426881987,
   1925078388, 2162078206, 2614888103, 3248222580, 3835390401, 4022224774,
   264347078, 604807628, 770255983, 1249150122, 1555081692, 1996064986,
   2554220882, 2821834349, 2952996808, 3210313671, 3336571891, 3584528711,
   113926993, 338241895, 666307205, 773529912, 1294757372, 1396182291,
   1695183700, 1986661051, 2177026350, 2456956037, 2730485921, 2820302411,
   3259730800, 3345764771, 3516065817, 3600352804, 4094571909, 275423344,
   430227734, 506948616, 659060556, 883997877, 958139571, 1322822218,
   1537002063, 1747873779, 1955562222, 2024104815, 2227730452, 2361852424,
   2428436474, 2756734187, 3204031479, 3329325298]

/-- Four big-endian bytes per 32-bit word. -/
def bytesToWords : List Nat → List Nat
  | b1 :: b2 :: b3 :: b4 :: rest =>
      (b1 * 16777216 + b2 * 65536 + b3 * 256 + b4) :: bytesToWords rest
  | _ => []

/-- `k` big-endian bytes of `n`. -/
def natToBytesBE : Nat → Nat → List Nat
  | 0, _ => []
  | k + 1, n => natToBytesBE k (n / 256) ++ [n % 256]

/-- Message-schedule extension: append `k` further words to the first 16. -/
def extendSchedule : List Nat → Nat → List Nat
  | ws, 0 => ws
  | ws, k + 1 =>
      let n := ws.length
      let s0 :=
        rotr 7 (ws.getD (n - 15) 0) ^^^ rotr 18 (ws.getD (n - 15) 0) ^^^
          (ws.getD (n - 15) 0) >>> 3
      let s1 :=
        rotr 17 (ws.getD (n - 2) 0) ^^^ rotr 19 (ws.getD (n - 2) 0) ^^^
          (ws.getD (n - 2) 0) >>> 10
      extendSchedule (ws ++ [w32 (ws.getD (n - 16) 0 + s0 + ws.getD (n - 7) 0 + s1)]) k

/-- One compression round, consuming a round constant and a schedule word. -/
def compressRound (s : Hash8) (kw : Nat × Nat) : Hash8 :=
  let S1 := rotr 6 s.e ^^^ rotr 11 s.e ^^^ rotr 25 s.e
  let ch := s.e &&& s.f ^^^ bnot32 s.e &&& s.g
  let temp1 := w32 (s.h + S1 + ch + kw.1 + kw.2)
  let S0 := rotr 2 s.a ^^^ rotr 13 s.a ^^^ rotr 22 s.a
  let maj := s.a &&& s.b ^^^ s.a &&& s.c ^^^ s.b &&& s.c
  let temp2 := w32 (S0 + maj)
  ⟨w32 (temp1 + temp2), s.a, s.b, s.c, w32 (s.d + temp1), s.e, s.f, s.g⟩

/-- Process one padded 64-byte chunk. -/
def processChunk (h : Hash8) (chunk : List Nat) : Hash8 :=
  let ws := extendSchedule (bytesToWords chunk) 48
  let s := (sha256K.zip ws).foldl compressRound h
  ⟨w32 (h.a + s.a), w32 (h.b + s.b), w32 (h.c + s.c), w32 (h.d + s.d),
   w32 (h.e + s.e), w32 (h.f + s.f), w32 (h.g + s.g), w32 (h.h + s.h)⟩

/-- Split into 64-byte chunks (fuel-structured so the kernel can evaluate;
the fuel `l.length` always suffices since each step consumes 64 bytes). -/
def chunks64Aux : Nat → List Nat → List (List Nat)
  | 0, _ => []
  | _, [] => []
  | fuel + 1, l => l.take 64 :: chunks64Aux fuel (l.drop 64)

/-- Split into 64-byte chunks. -/
def chunks64 (l : List Nat) : List (List Nat) := chunks64Aux l.length l

/-- FIPS 180-4 padding: `0x80`, zeros to 56 mod 64, 8-byte bit length. -/
def sha256Pad (msg : List Nat) : List Nat :=
  msg ++ 128 :: List.replicate ((119 - msg.length % 64) % 64) 0 ++
    natToBytesBE 8 (msg.length * 8)

/-- The 32 digest bytes, big-endian per word. -/
def serializeHash (h : Hash8) : List Nat :=
  natToBytesBE 4 h.a ++ natToBytesBE 4 h.b ++ natToBytesBE 4 h.c ++
  natToBytesBE 4 h.d ++ natToBytesBE 4 h.e ++ natToBytesBE 4 h.f ++
  natToBytesBE 4 h.g ++ natToBytesBE 4 h.h

/-- SHA-256 of a byte list. -/
def sha256 (msg : List Nat) : List Nat :=
  serializeHash ((chunks64 (sha256Pad msg)).foldl processChunk sha256InitH)

/-! ## `generateHash` from `src/utils/crypto.ts`

`generateHash` UTF-8-encodes the string, digests it with SHA-256 and renders
each byte as `b.toString(16).padStart(2, '0')`.  For a byte `b < 256` that is
exactly the two characters `hexDigit (b / 16)`, `hexDigit (b % 16)`. -/

/-- The lowercase hexadecimal digits, in value order. -/
def hexDigits : List Char := "0123456789abcdef".toList

/-- The character for one hex digit. -/
def hexDigit (n : Nat) : Char := hexDigits.getD n '0'

/-- `b.toString(16).padStart(2, '0')` for a byte `b`. -/
def byteToHex (b : Nat) : List Char := [hexDigit (b / 16), hexDigit (b % 16)]

/-- `generateHash` from `src/utils/crypto.ts`: the lowercase-hex SHA-256
digest of the UTF-8 bytes of the input string. -/
def generateHash (data : String) : String :=
  ⟨((sha256 (utf8Encode data)).map byteToHex).flatten⟩

theorem natToBytesBE_length (k : Nat) : ∀ n, (natToBytesBE k n).length = k := by
  induction k with
  | zero => intro n; rfl
  | succ k ih => intro n; simp [natToBytesBE, ih]

theorem natToBytesBE_lt (k : Nat) : ∀ n, ∀ b ∈ natToBytesBE k n, b < 256 := by
  induction k with
  | zero => intro n b hb; simp [natToBytesBE] at hb
  | succ k ih =>
      intro n b hb
      simp only [natToBytesBE, List.mem_append, List.mem_singleton] at hb
      rcases hb with hb | hb
      · exact ih _ b hb
      · omega

theorem serializeHash_length (h : Hash8) : (serializeHash h).length = 32 := by
  simp [serializeHash, natToBytesBE_length]

theorem serializeHash_lt (h : Hash8) : ∀ b ∈ serializeHash h, b < 256 := by
  intro b hb
  simp only [serializeHash, List.mem_append] at hb
  rcases hb with ((((((hb | hb) | hb) | hb) | hb) | hb) | hb) | hb <;>
    exact natToBytesBE_lt 4 _ b hb

/-- The digest is always exactly 32 bytes. -/
theorem sha256_length (msg : List Nat) : (sha256 msg).length = 32 :=
  serializeHash_length _

/-- Every digest byte is a byte. -/
theorem sha256_lt (msg : List Nat) : ∀ b ∈ sha256 msg, b < 256 :=
  serializeHash_lt _

theorem hexDigit_mem (n : Nat) : hexDigit n ∈ hexDigits := by
  unfold hexDigit
  by_cases h : n < hexDigits.length
  · rw [List.getD_eq_getElem _ _ h]
    exact List.getElem_mem h
  · rw [List.getD_eq_default _ _ (by omega)]
    decide

theorem byteToHex_length (b : Nat) : (byteToHex b).length = 2 := rfl

theorem hexFlatten_length : ∀ l : List Nat, ((l.map byteToHex).flatten).length = 2 * l.length := by
  intro l
  induction l with
  | nil => rfl
  | cons b bs ih => simp [byteToHex] at *; omega

/-- SHA-256 test vector: the digest of `"abc"` (FIPS 180-4). -/
theorem generateHash_abc : generateHash "abc" =
    "ba7816bf8f01cfea414140de5dae2223b00361a396177a9cb410ff61f20015ad" := by
  set_option maxRecDepth 20000 in decide

/-- SHA-256 test vector: the digest of the empty string. -/
theorem generateHash_empty : generateHash "" =
    "e3b0c44298fc1c149afbf4c8996fb92427ae41e4649b934ca495991b7852b855" := by
  set_option maxRecDepth 20000 in decide

/-- `Except.bind` propagates an error. -/
theorem except_error_bind {e : Type} {a b : Type} (x : e) (f : a → Except e b) :
    (Except.error x >>= f) = Except.error x := rfl

/-- `Except.bind` applies the continuation on success. -/
theorem except_ok_bind {e : Type} {a b : Type} (x : a) (f : a → Except e b) :
    (Except.ok x >>= f) = f x := rfl

/-- `pure` for `Except` is `Except.ok`. -/
theorem except_pure_eq {e : Type} {a : Type} (x : a) : (pure x : Except e a) = Except.ok x := rfl

/-! ## The asymmetric platform primitive (`crypto.subtle`, RSASSA-PKCS1-v1_5)

The repository never implements RSA itself: `generateKeyPair`, `signData`
and `verifySignature` in `src/utils/crypto.ts` call `crypto.subtle`.  The
platform is therefore a parameter: a `SubtleCrypto` supplies the operations
the source invokes, and `RsassaContract` states the guarantees the Web
Crypto API gives for `RSASSA-PKCS1-v1_5` with `SHA-256` (deterministic
signatures over the raw message, hashing performed inside the primitive;
key import rejects malformed PKCS#8 / SPKI material).  Fallible platform
operations return `Except` / `Option` where the platform rejects a promise:
`none` from an import is the `KeyFormatError` taxon, an `error` from
`sign`/`verify` the `CryptoProviderError` taxon. -/

/-- Failure of the platform primitive itself (the promise rejects although
all inputs were well-formed): the `CryptoProviderError` taxon. -/
inductive ProviderError where
  | operationFailed
deriving DecidableEq

/-- What a repository-level crypto operation can fail with. -/
inductive CryptoError where
  /-- Malformed key or base64 encoding: the `KeyFormatError` taxon. -/
  | keyFormat
  /-- The platform could not perform the primitive: `CryptoProviderError`. -/
  | providerFailure
deriving DecidableEq

/-- The slice of the Web Crypto API the source uses, as an explicit
collaborator.  `generated spki pkcs8` holds when one call of
`crypto.subtle.generateKey` + `exportKey` for 2048-bit RSASSA-PKCS1-v1_5 may
produce exactly these exported key bytes. -/
structure SubtleCrypto where
  PrivateKey : Type
  PublicKey : Type
  importKeyPkcs8 : List Nat → Option PrivateKey
  importKeySpki : List Nat → Option PublicKey
  sign : PrivateKey → List Nat → Except ProviderError (List Nat)
  verify : PublicKey → List Nat → List Nat → Except ProviderError Bool
  generated : List Nat → List Nat → Prop

namespace SubtleCrypto

variable (C : SubtleCrypto)

/-- The contract the Web Crypto API guarantees for RSASSA-PKCS1-v1_5: key
pairs it generated export to byte material that re-imports, signing under
the imported private key succeeds and produces signature bytes, and
verification accepts exactly that signature for exactly that message under
the matching public key. -/
structure RsassaContract : Prop where
  generated_bytes : ∀ spki pkcs8, C.generated spki pkcs8 →
    (∀ b ∈ spki, b < 256) ∧ (∀ b ∈ pkcs8, b < 256)
  import_pkcs8 : ∀ spki pkcs8, C.generated spki pkcs8 →
    ∃ k, C.importKeyPkcs8 pkcs8 = some k
  import_spki : ∀ spki pkcs8, C.generated spki pkcs8 →
    ∃ k, C.importKeySpki spki = some k
  sign_ok : ∀ spki pkcs8 k, C.generated spki pkcs8 →
    C.importKeyPkcs8 pkcs8 = some k →
    ∀ msg, ∃ sig, C.sign k msg = .ok sig ∧ ∀ b ∈ sig, b < 256
  verify_sign : ∀ spki pkcs8 kpriv kpub, C.generated spki pkcs8 →
    C.importKeyPkcs8 pkcs8 = some kpriv → C.importKeySpki spki = some kpub →
    ∀ msg sig, C.sign kpriv msg = .ok sig → C.verify kpub sig msg = .ok true

end SubtleCrypto

/-- `generateKeyPair` from `src/utils/crypto.ts` exports the generated pair
(SPKI for the public key, PKCS#8 for the private key) and base64-encodes
both.  Being platform-random it is embedded as the predicate describing its
possible results. -/
def GeneratedKeyPair (C : SubtleCrypto) (publicKey privateKey : String) : Prop :=
  ∃ spki pkcs8, C.generated spki pkcs8 ∧
    publicKey = arrayBufferToBase64 spki ∧ privateKey = arrayBufferToBase64 pkcs8

/-- `signData` from `src/utils/crypto.ts`: base64-decode the private key
and import it as PKCS#8, UTF-8-encode the data, sign, base64-encode the
signature.  The function has no `try`/`catch`, so every failure propagates
to the caller; `Except` carries it. -/
def signData (C : SubtleCrypto) (data : String) (privateKeyBase64 : String) :
    Except CryptoError String := do
  let privateKeyBuffer ← match base64ToArrayBuffer privateKeyBase64 with
    | none => Except.error CryptoError.keyFormat
    | some b => pure b
  let privateKey ← match C.importKeyPkcs8 privateKeyBuffer with
    | none => Except.error CryptoError.keyFormat
    | some k => pure k
  let dataBuffer := utf8Encode data
  let signature ← match C.sign privateKey dataBuffer with
    | .error _ => Except.error CryptoError.providerFailure
    | .ok s => pure s
  pure (arrayBufferToBase64 signature)

/-- The body of `verifySignature` from `src/utils/crypto.ts` (the code
inside the `try`): base64-decode and import the public key, UTF-8-encode
the data, base64-decode the signature, call `crypto.subtle.verify`. -/
def verifySignatureBody (C : SubtleCrypto) (data signatureBase64 publicKeyBase64 : String) :
    Except CryptoError Bool := do
  let publicKeyBuffer ← match base64ToArrayBuffer publicKeyBase64 with
    | none => Except.error CryptoError.keyFormat
    | some b => pure b
  let publicKey ← match C.importKeySpki publicKeyBuffer with
    | none => Except.error CryptoError.keyFormat
    | some k => pure k
  let dataBuffer := utf8Encode data
  let signatureBuffer ← match base64ToArrayBuffer signatureBase64 with
    | none => Except.error CryptoError.keyFormat
    | some b => pure b
  match C.verify publicKey signatureBuffer dataBuffer with
  | .error _ => Except.error CryptoError.providerFailure
  | .ok b => pure b

/-- `verifySignature` from `src/utils/crypto.ts`: the `catch` clause maps
every error — format or provider — to `false`. -/
def verifySignature (C : SubtleCrypto) (data signatureBase64 publicKeyBase64 : String) : Bool :=
  match verifySignatureBody C data signatureBase64 publicKeyBase64 with
  | .ok b => b
  | .error _ => false

/-! ## Concrete platform instances

`ToyCrypto` is a small executable `SubtleCrypto` satisfying the
RSASSA contract, used to instantiate hypotheses at concrete inputs;
`FailingCrypto` is a platform whose primitive operations reject, exercising
the `CryptoProviderError` paths. -/

/-- A minimal platform: the one generated pair exports to `[7, 2]` (SPKI) /
`[8, 1]` (PKCS#8), signing reduces the message bytes mod 256, verification
recomputes and compares. -/
def ToyCrypto : SubtleCrypto where
  PrivateKey := List Nat
  PublicKey := List Nat
  importKeyPkcs8 := fun b => if b = [8, 1] then some b else none
  importKeySpki := fun b => if b = [7, 2] then some b else none
  sign := fun _ msg => .ok (msg.map (· % 256))
  verify := fun pub sig msg => .ok (decide (pub = [7, 2] ∧ sig = msg.map (· % 256)))
  generated := fun spki pkcs8 => spki = [7, 2] ∧ pkcs8 = [8, 1]

theorem toyContract : ToyCrypto.RsassaContract := by
  constructor
  · rintro spki pkcs8 ⟨h1, h2⟩
    subst h1; subst h2
    exact ⟨by decide, by decide⟩
  · rintro spki pkcs8 ⟨h1, h2⟩
    subst h2
    exact ⟨[8, 1], by simp [ToyCrypto]⟩
  · rintro spki pkcs8 ⟨h1, h2⟩
    subst h1
    exact ⟨[7, 2], by simp [ToyCrypto]⟩
  · rintro spki pkcs8 k ⟨h1, h2⟩ hk msg
    refine ⟨msg.map (· % 256), rfl, ?_⟩
    intro b hb
    simp only [List.mem_map] at hb
    obtain ⟨a, _, ha⟩ := hb
    omega
  · rintro spki pkcs8 kpriv kpub ⟨h1, h2⟩ hkpriv hkpub msg sig hsig
    subst h1; subst h2
    simp only [ToyCrypto, if_pos] at hkpriv hkpub hsig ⊢
    cases hkpub
    cases hsig
    simp [ToyCrypto]

/-- A platform whose sign/verify primitives reject every request. -/
def FailingCrypto : SubtleCrypto where
  PrivateKey := List Nat
  PublicKey := List Nat
  importKeyPkcs8 := fun b => some b
  importKeySpki := fun b => some b
  sign := fun _ _ => .error .operationFailed
  verify := fun _ _ _ => .error .operationFailed
  generated := fun _ _ => False

/-! ## Claims C1, C2, C3, C7: the `src/utils/crypto.ts` layer -/

/-- **C1.** For every content string `c` and every key pair `(pub, priv)`
returned by `generateKeyPair`, `verifySignature (c, signData (c, priv), pub)`
returns `true`: the sign/verify round trip, for any platform honouring the
RSASSA-PKCS1-v1_5 contract. -/
theorem signData_verifySignature_roundtrip (C : SubtleCrypto) (hC : C.RsassaContract)
    (pub priv : String) (hk : GeneratedKeyPair C pub priv) (c : String) :
    ∃ sig, signData C c priv = .ok sig ∧ verifySignature C c sig pub = true := by
  obtain ⟨spki, pkcs8, hgen, hpub, hpriv⟩ := hk
  obtain ⟨hspki_lt, hpkcs8_lt⟩ := hC.generated_bytes spki pkcs8 hgen
  obtain ⟨kpriv, hkpriv⟩ := hC.import_pkcs8 spki pkcs8 hgen
  obtain ⟨kpub, hkpub⟩ := hC.import_spki spki pkcs8 hgen
  obtain ⟨sigBytes, hsig, hsig_lt⟩ := hC.sign_ok spki pkcs8 kpriv hgen hkpriv (utf8Encode c)
  have hver := hC.verify_sign spki pkcs8 kpriv kpub hgen hkpriv hkpub (utf8Encode c) sigBytes hsig
  have hdecpriv : base64ToArrayBuffer priv = some pkcs8 := by
    rw [hpriv]
    unfold base64ToArrayBuffer arrayBufferToBase64
    simpa using atobBytes_btoaBytes pkcs8 hpkcs8_lt
  have hdecpub : base64ToArrayBuffer pub = some spki := by
    rw [hpub]
    unfold base64ToArrayBuffer arrayBufferToBase64
    simpa using atobBytes_btoaBytes spki hspki_lt
  have hdecsig : base64ToArrayBuffer (arrayBufferToBase64 sigBytes) = some sigBytes := by
    unfold base64ToArrayBuffer arrayBufferToBase64
    simpa using atobBytes_btoaBytes sigBytes hsig_lt
  refine ⟨arrayBufferToBase64 sigBytes, ?_, ?_⟩
  · simp [signData, hdecpriv, hkpriv, hsig, except_ok_bind, except_error_bind, except_pure_eq]
  · simp [verifySignature, verifySignatureBody, hdecpub, hkpub, hdecsig, hver,
      except_ok_bind, except_error_bind, except_pure_eq]

/-- Witness for C1 at the toy platform's generated pair and `"hello"`. -/
theorem signData_verifySignature_roundtrip_witness :
    ∃ sig, signData ToyCrypto "hello" (arrayBufferToBase64 [8, 1]) = .ok sig ∧
      verifySignature ToyCrypto "hello" sig (arrayBufferToBase64 [7, 2]) = true :=
  signData_verifySignature_roundtrip ToyCrypto toyContract _ _
    ⟨[7, 2], [8, 1], ⟨rfl, rfl⟩, rfl, rfl⟩ "hello"

/-- A signature or public-key argument of `verifySignature` that is garbage:
the base64 decode of signature or key fails, or the decoded key bytes are
rejected by key import. -/
def MalformedVerifyInput (C : SubtleCrypto) (signatureBase64 publicKeyBase64 : String) : Prop :=
  base64ToArrayBuffer publicKeyBase64 = none ∨
  (∃ b, base64ToArrayBuffer publicKeyBase64 = some b ∧ C.importKeySpki b = none) ∨
  base64ToArrayBuffer signatureBase64 = none

/-- **C2.** For every content string and garbage signature/public-key
argument, the body of `verifySignature` fails with the (typed) key-format
error, and the `catch` clause turns it into `false` for the caller — no
exception escapes. -/
theorem verifySignature_malformed_returns_false (C : SubtleCrypto)
    (data signatureBase64 publicKeyBase64 : String)
    (h : MalformedVerifyInput C signatureBase64 publicKeyBase64) :
    verifySignatureBody C data signatureBase64 publicKeyBase64 = .error CryptoError.keyFormat ∧
    verifySignature C data signatureBase64 publicKeyBase64 = false := by
  have hbody : verifySignatureBody C data signatureBase64 publicKeyBase64 =
      .error CryptoError.keyFormat := by
    rcases h with h | ⟨b, hb, himp⟩ | h
    · simp [verifySignatureBody, h, except_ok_bind, except_error_bind, except_pure_eq]
    · simp [verifySignatureBody, hb, himp, except_ok_bind, except_error_bind, except_pure_eq]
    · match hpk : base64ToArrayBuffer publicKeyBase64 with
      | none => simp [verifySignatureBody, hpk, except_ok_bind, except_error_bind, except_pure_eq]
      | some b =>
          match himp : C.importKeySpki b with
          | none =>
              simp [verifySignatureBody, hpk, himp, except_ok_bind, except_error_bind,
                except_pure_eq]
          | some k =>
              simp [verifySignatureBody, hpk, himp, h, except_ok_bind, except_error_bind,
                except_pure_eq]
  exact ⟨hbody, by simp [verifySignature, hbody]⟩

/-- Witness for C2: an invalid base64 signature string. -/
theorem verifySignature_malformed_returns_false_witness :
    verifySignatureBody ToyCrypto "content" "!!!" (arrayBufferToBase64 [7, 2]) =
        .error CryptoError.keyFormat ∧
    verifySignature ToyCrypto "content" "!!!" (arrayBufferToBase64 [7, 2]) = false :=
  verifySignature_malformed_returns_false ToyCrypto "content" "!!!" (arrayBufferToBase64 [7, 2])
    (Or.inr (Or.inr (by decide)))

/-- **C3, counterexample.** A cryptographic primitive failure during
verification does *not* surface to the caller distinctly from a
"verification returned false" result: on a platform whose `verify`
primitive rejects, the body fails with the provider error, yet the caller
of `verifySignature` sees plain `false` — the very value an evaluated-and-
failed verification produces (third conjunct, same call on the toy
platform). -/
theorem verifySignature_swallows_provider_error_cex :
    verifySignatureBody FailingCrypto "m" "AA==" "AA==" =
        .error CryptoError.providerFailure ∧
    verifySignature FailingCrypto "m" "AA==" "AA==" = false ∧
    verifySignature ToyCrypto "m" "AA==" (arrayBufferToBase64 [7, 2]) = false :=
  ⟨rfl, rfl, rfl⟩

/-- **C3, amended.** Inside `verifySignature` the provider failure is a
distinct typed error, but the `catch` clause normalizes every failure of
the body — provider failures included — to the caller-visible value
`false`; the distinction is logged to the console only and never reaches
the caller. -/
theorem verifySignature_normalizes_all_errors (C : SubtleCrypto)
    (data signatureBase64 publicKeyBase64 : String) (e : CryptoError)
    (h : verifySignatureBody C data signatureBase64 publicKeyBase64 = .error e) :
    verifySignature C data signatureBase64 publicKeyBase64 = false := by
  simp [verifySignature, h]

/-- Witness for the amended C3 at the failing platform. -/
theorem verifySignature_normalizes_all_errors_witness :
    verifySignature FailingCrypto "m" "AA==" "AA==" = false :=
  verifySignature_normalizes_all_errors FailingCrypto "m" "AA==" "AA=="
    CryptoError.providerFailure rfl

/-- **C7.** `signData` fails with the key-format error for every
`privateKey` argument that is not valid PKCS#8 key material (either the
base64 decode fails or key import rejects the bytes), and it does so
before any signing: the result is the same for every content string. -/
theorem signData_keyFormat_before_signing (C : SubtleCrypto) (data privateKeyBase64 : String)
    (h : base64ToArrayBuffer privateKeyBase64 = none ∨
      ∃ b, base64ToArrayBuffer privateKeyBase64 = some b ∧ C.importKeyPkcs8 b = none) :
    signData C data privateKeyBase64 = .error CryptoError.keyFormat ∧
    ∀ data', signData C data' privateKeyBase64 = signData C data privateKeyBase64 := by
  have key : ∀ d : String, signData C d privateKeyBase64 = .error CryptoError.keyFormat := by
    intro d
    rcases h with h | ⟨b, hb, himp⟩
    · simp [signData, h, except_ok_bind, except_error_bind, except_pure_eq]
    · simp [signData, hb, himp, except_ok_bind, except_error_bind, except_pure_eq]
  exact ⟨key data, fun data' => (key data').trans (key data).symm⟩

/-- Witness for C7: `"AA=="` decodes to `[0]`, which PKCS#8 import
rejects on the toy platform. -/
theorem signData_keyFormat_before_signing_witness :
    signData ToyCrypto "payload" "AA==" = .error CryptoError.keyFormat ∧
    ∀ data', signData ToyCrypto data' "AA==" = signData ToyCrypto "payload" "AA==" :=
  signData_keyFormat_before_signing ToyCrypto "payload" "AA=="
    (Or.inr ⟨[0], rfl, rfl⟩)

/-! ## The verification page (`handleVerify`, current variant)

The orchestrated verification operation of the verify page: use the
manually entered signature and public key when both are present, otherwise
look the signed record up by content digest, recover the signature (audit
metadata first, stored `signature_data` as fallback) and the public key
(audit metadata), and run the cryptographic check.  The persistence layer
is modelled by the row data the queries return. -/

/-- A row of the `signatures` table (the selected columns the page uses). -/
structure SignatureRow where
  signature_data : String
deriving DecidableEq

/-- A row of the `documents` table with its joined signatures. -/
structure DocumentRow where
  id : Nat
  file_hash : String
  signatures : List SignatureRow
deriving DecidableEq

/-- A row of the `audit_logs` table (the metadata fields the page reads). -/
structure AuditRow where
  resource_id : Nat
  action : String
  public_key : Option String
  signature : Option String
deriving DecidableEq

/-- The backing store the page queries. -/
structure Database where
  documents : List DocumentRow
  audit_logs : List AuditRow

/-- JavaScript `a || b` on an optional string: `undefined` and `""` are
falsy. -/
def jsOr (o : Option String) (d : String) : String :=
  match o with
  | none => d
  | some s => if s = "" then d else s

/-- The `documents` query: rows whose `file_hash` equals the digest. -/
def matchingDocuments (db : Database) (fileHash : String) : List DocumentRow :=
  db.documents.filter (fun d => d.file_hash == fileHash)

/-- The `audit_logs` query: first row for this document with action
`document_signed` (`limit(1).single()`; a zero-row error is surfaced as
`none` since the page ignores the error object). -/
def signedAudit (db : Database) (docId : Nat) : Option AuditRow :=
  (db.audit_logs.filter
    (fun a => a.resource_id == docId && a.action == "document_signed")).head?

/-- The page's caller-visible verification state. -/
structure VerificationResult where
  verified : Bool
  message : String
deriving DecidableEq

/-- Outcome shown when no document row matches the digest. -/
def notSignedResult : VerificationResult :=
  ⟨false, "This content has not been signed or no signature/public key provided"⟩

/-- Outcome shown when the document row has no joined signature row. -/
def noSignatureFoundResult : VerificationResult :=
  ⟨false, "No signature found for this content"⟩

/-- Outcome shown when no public key is recoverable from the audit log. -/
def keyNotFoundResult : VerificationResult :=
  ⟨false, "Public key not found in database. Cannot verify signature."⟩

/-- Outcome of the cryptographic check itself. -/
def verifyOutcome (isValid : Bool) : VerificationResult :=
  if isValid then
    ⟨true, "Signature verified successfully! Content is authentic and unmodified."⟩
  else
    ⟨false, "Signature verification failed! Content may have been tampered with."⟩

/-- Outcome of the cryptographic check when it fails. -/
def invalidResult : VerificationResult := verifyOutcome false

/-- `handleVerify` of the verify page (current variant): the lookup runs
exactly when the manual signature or the manual public key is missing
(JS falsy: the empty string), and its early returns produce the
not-signed / no-signature / key-not-found outcomes. -/
def handleVerify (C : SubtleCrypto) (db : Database)
    (manualSignature manualPublicKey dataToVerify : String) : VerificationResult :=
  if manualSignature = "" ∨ manualPublicKey = "" then
    match matchingDocuments db (generateHash dataToVerify) with
    | [] => notSignedResult
    | doc :: _ =>
      match doc.signatures.head? with
      | none => noSignatureFoundResult
      | some signatureRow =>
        let audit := signedAudit db doc.id
        let dbPublicKey := audit.bind AuditRow.public_key
        let dbSignature := jsOr (audit.bind AuditRow.signature) signatureRow.signature_data
        match dbPublicKey with
        | none => keyNotFoundResult
        | some pk =>
            if pk = "" then keyNotFoundResult
            else verifyOutcome (verifySignature C dataToVerify dbSignature pk)
  else
    verifyOutcome (verifySignature C dataToVerify manualSignature manualPublicKey)

/-- **C5.** When the caller supplies both a signature and a public key
(manual entry), the lookup is skipped entirely — the result is the direct
cryptographic check on the supplied values, and it does not depend on the
backing store at all. -/
theorem handleVerify_manual_entry_skips_lookup (C : SubtleCrypto) (db : Database)
    (ms mk c : String) (hms : ms ≠ "") (hmk : mk ≠ "") :
    handleVerify C db ms mk c = verifyOutcome (verifySignature C c ms mk) ∧
    ∀ db', handleVerify C db' ms mk c = handleVerify C db ms mk c := by
  have key : ∀ d : Database,
      handleVerify C d ms mk c = verifyOutcome (verifySignature C c ms mk) := by
    intro d
    unfold handleVerify
    rw [if_neg]
    push_neg
    exact ⟨hms, hmk⟩
  exact ⟨key db, fun db' => (key db').trans (key db).symm⟩

/-- Witness for C5 with both credentials supplied and an empty store. -/
theorem handleVerify_manual_entry_skips_lookup_witness :
    handleVerify ToyCrypto ⟨[], []⟩ "sig" "key" "text" =
      verifyOutcome (verifySignature ToyCrypto "text" "sig" "key") ∧
    ∀ db', handleVerify ToyCrypto db' "sig" "key" "text" =
      handleVerify ToyCrypto ⟨[], []⟩ "sig" "key" "text" :=
  handleVerify_manual_entry_skips_lookup ToyCrypto ⟨[], []⟩ "sig" "key" "text"
    (by decide) (by decide)

/-- **C6.** The orchestrated verification yields three distinct outcomes:
no matching record → "not signed"; record without a recoverable public
key → "key not found"; failing cryptographic check → "signature invalid";
and the three results are pairwise different, hence distinguishable to the
caller. -/
theorem handleVerify_three_outcomes_distinct :
    (∀ (C : SubtleCrypto) (db : Database) (ms mk c : String),
        (ms = "" ∨ mk = "") →
        matchingDocuments db (generateHash c) = [] →
        handleVerify C db ms mk c = notSignedResult) ∧
    (∀ (C : SubtleCrypto) (db : Database) (ms mk c : String)
        (doc : DocumentRow) (tl : List DocumentRow) (sigRow : SignatureRow),
        (ms = "" ∨ mk = "") →
        matchingDocuments db (generateHash c) = doc :: tl →
        doc.signatures.head? = some sigRow →
        (signedAudit db doc.id).bind AuditRow.public_key = none →
        handleVerify C db ms mk c = keyNotFoundResult) ∧
    (∀ (C : SubtleCrypto) (db : Database) (ms mk c : String)
        (doc : DocumentRow) (tl : List DocumentRow) (sigRow : SignatureRow) (pk : String),
        (ms = "" ∨ mk = "") →
        matchingDocuments db (generateHash c) = doc :: tl →
        doc.signatures.head? = some sigRow →
        (signedAudit db doc.id).bind AuditRow.public_key = some pk →
        pk ≠ "" →
        verifySignature C c
          (jsOr ((signedAudit db doc.id).bind AuditRow.signature) sigRow.signature_data)
          pk = false →
        handleVerify C db ms mk c = invalidResult) ∧
    (notSignedResult ≠ keyNotFoundResult ∧ notSignedResult ≠ invalidResult ∧
      keyNotFoundResult ≠ invalidResult) := by
  refine ⟨?_, ?_, ?_, by refine ⟨by decide, by decide, by decide⟩⟩
  · intro C db ms mk c hm hdoc
    unfold handleVerify
    rw [if_pos hm, hdoc]
  · intro C db ms mk c doc tl sigRow hm hdoc hsig hpk
    unfold handleVerify
    rw [if_pos hm, hdoc]
    simp only [hsig, hpk]
  · intro C db ms mk c doc tl sigRow pk hm hdoc hsig hpk hpkne hver
    unfold handleVerify
    rw [if_pos hm, hdoc]
    simp only [hsig, hpk, hver, if_neg hpkne]
    rfl

/-- A store holding a signed record for `"doc"` whose audit row carries no
public key. -/
def dbNoKey : Database :=
  ⟨[⟨1, generateHash "doc", [⟨"stored-sig"⟩]⟩], []⟩

/-- A store holding a signed record for `"doc"` whose audit row carries a
public key the toy platform rejects, so the check evaluates to `false`. -/
def dbBadKey : Database :=
  ⟨[⟨1, generateHash "doc", [⟨"stored-sig"⟩]⟩],
   [⟨1, "document_signed", some "key", some "sig0"⟩]⟩

set_option maxRecDepth 20000 in
/-- Witness for C6 at concrete stores for each of the three outcomes. -/
theorem handleVerify_three_outcomes_distinct_witness :
    handleVerify ToyCrypto ⟨[], []⟩ "" "" "doc" = notSignedResult ∧
    handleVerify ToyCrypto dbNoKey "" "" "doc" = keyNotFoundResult ∧
    handleVerify ToyCrypto dbBadKey "" "" "doc" = invalidResult ∧
    (notSignedResult ≠ keyNotFoundResult ∧ notSignedResult ≠ invalidResult ∧
      keyNotFoundResult ≠ invalidResult) :=
  ⟨handleVerify_three_outcomes_distinct.1 ToyCrypto ⟨[], []⟩ "" "" "doc" (Or.inl rfl) rfl,
   handleVerify_three_outcomes_distinct.2.1 ToyCrypto dbNoKey "" "" "doc"
     ⟨1, generateHash "doc", [⟨"stored-sig"⟩]⟩ [] ⟨"stored-sig"⟩ (Or.inl rfl) rfl rfl rfl,
   handleVerify_three_outcomes_distinct.2.2.1 ToyCrypto dbBadKey "" "" "doc"
     ⟨1, generateHash "doc", [⟨"stored-sig"⟩]⟩ [] ⟨"stored-sig"⟩ "key" (Or.inl rfl) rfl rfl rfl
     (by decide) rfl,
   handleVerify_three_outcomes_distinct.2.2.2⟩

/-- **C10.** When the caller supplies only one of the two manual
credentials, the lookup still runs, and on success the values recovered
from storage — the audit-log signature (falling back to the stored
`signature_data`) and the audit-log public key — are what the
cryptographic check receives; the partially supplied manual values are not
used, so any partial manual entry yields the same result. -/
theorem handleVerify_partial_manual_uses_db_values (C : SubtleCrypto) (db : Database)
    (ms mk c : String) (doc : DocumentRow) (tl : List DocumentRow)
    (sigRow : SignatureRow) (pk : String)
    (hm : ms = "" ∨ mk = "")
    (hdoc : matchingDocuments db (generateHash c) = doc :: tl)
    (hsig : doc.signatures.head? = some sigRow)
    (hpk : (signedAudit db doc.id).bind AuditRow.public_key = some pk)
    (hpkne : pk ≠ "") :
    handleVerify C db ms mk c =
      verifyOutcome (verifySignature C c
        (jsOr ((signedAudit db doc.id).bind AuditRow.signature) sigRow.signature_data) pk) ∧
    ∀ ms' mk', (ms' = "" ∨ mk' = "") →
      handleVerify C db ms' mk' c = handleVerify C db ms mk c := by
  have key : ∀ ms' mk' : String, (ms' = "" ∨ mk' = "") →
      handleVerify C db ms' mk' c =
        verifyOutcome (verifySignature C c
          (jsOr ((signedAudit db doc.id).bind AuditRow.signature) sigRow.signature_data) pk) := by
    intro ms' mk' hm'
    unfold handleVerify
    rw [if_pos hm', hdoc]
    simp only [hsig, hpk, if_neg hpkne]
  exact ⟨key ms mk hm, fun ms' mk' hm' => (key ms' mk' hm').trans (key ms mk hm).symm⟩

set_option maxRecDepth 20000 in
/-- Witness for C10: a manual signature with no manual key; the store's
audit row carries both the signature and the key actually used. -/
theorem handleVerify_partial_manual_uses_db_values_witness :
    handleVerify ToyCrypto dbBadKey "manual-sig" "" "doc" =
      verifyOutcome (verifySignature ToyCrypto "doc"
        (jsOr ((signedAudit dbBadKey 1).bind AuditRow.signature) "stored-sig") "key") ∧
    ∀ ms' mk', (ms' = "" ∨ mk' = "") →
      handleVerify ToyCrypto dbBadKey ms' mk' "doc" =
        handleVerify ToyCrypto dbBadKey "manual-sig" "" "doc" :=
  handleVerify_partial_manual_uses_db_values ToyCrypto dbBadKey "manual-sig" "" "doc"
    ⟨1, generateHash "doc", [⟨"stored-sig"⟩]⟩ [] ⟨"stored-sig"⟩ "key"
    (Or.inr rfl) rfl rfl rfl (by decide)

/-! ## The sign page (`handleSign`, crypto variant, file mode)

The signing action sequences: upload the artifact, compute the content
digest, sign the raw content, insert the document row, insert the
signature row, insert the audit row (whose metadata carries the public
key).  Each persistence call's outcome is environment input; an error from
upload or either checked insert throws, aborting the rest (the audit
insert's error object is ignored by the source).  The step vocabulary
includes a rollback step precisely to state that the source never performs
one. -/

/-- Persistence actions the signing flow can attempt. -/
inductive PersistStep where
  | uploadArtifact
  | insertDocument
  | insertSignature
  | insertAudit
  /-- Deleting the uploaded artifact again: no code path emits this. -/
  | removeArtifact
deriving DecidableEq

/-- The persistence layer's behaviour for one signing action: the error
each call would report, `none` for success. -/
structure PersistEnv where
  uploadError : Option String
  docInsertError : Option String
  sigInsertError : Option String
  auditInsertError : Option String

/-- The column values of the inserted document row the claims speak about. -/
structure DocumentInsert where
  file_hash : String
deriving DecidableEq

/-- The column values of the inserted signature row. -/
structure SignatureInsert where
  signature_data : String
  signature_hash : String
deriving DecidableEq

/-- The audit-row metadata the verification path later depends on. -/
structure AuditInsert where
  public_key : String
deriving DecidableEq

/-- What a signing action can fail with (caught by the page's `catch`). -/
inductive SignFailure where
  | upload (e : String)
  | cryptoFailure (e : CryptoError)
  | docInsert (e : String)
  | sigInsert (e : String)
deriving DecidableEq

/-- The observable effect of one signing action: attempted steps in order,
committed rows, and the reported failure if any. -/
structure SignRun where
  steps : List PersistStep
  documentRow : Option DocumentInsert
  signatureRow : Option SignatureInsert
  auditRow : Option AuditInsert
  failure : Option SignFailure
deriving DecidableEq

/-- `handleSign` of the sign page (crypto variant, file mode): upload, then
`generateHash` and `signData` on the raw content, then the three inserts,
each checked error aborting the remainder of the chain. -/
def handleSign (C : SubtleCrypto) (env : PersistEnv)
    (content privateKey publicKey : String) : SignRun :=
  match env.uploadError with
  | some e => ⟨[.uploadArtifact], none, none, none, some (.upload e)⟩
  | none =>
    let fileHash := generateHash content
    match signData C content privateKey with
    | .error ce => ⟨[.uploadArtifact], none, none, none, some (.cryptoFailure ce)⟩
    | .ok signature =>
      match env.docInsertError with
      | some e =>
          ⟨[.uploadArtifact, .insertDocument], none, none, none, some (.docInsert e)⟩
      | none =>
        let docRow : DocumentInsert := ⟨fileHash⟩
        match env.sigInsertError with
        | some e =>
            ⟨[.uploadArtifact, .insertDocument, .insertSignature],
             some docRow, none, none, some (.sigInsert e)⟩
        | none =>
          let sigRow : SignatureInsert := ⟨signature, fileHash⟩
          match env.auditInsertError with
          | some _ =>
              ⟨[.uploadArtifact, .insertDocument, .insertSignature, .insertAudit],
               some docRow, some sigRow, none, none⟩
          | none =>
              ⟨[.uploadArtifact, .insertDocument, .insertSignature, .insertAudit],
               some docRow, some sigRow, some ⟨publicKey⟩, none⟩

/-- **C9.** Any failure in the persistence chain aborts all remaining
steps — after a failed upload no insert is attempted, after a failed
document insert no signature or audit row is written, after a failed
signature insert no audit row is written — and no code path ever removes
the already-uploaded artifact. -/
theorem handleSign_chain_aborts (C : SubtleCrypto) (env : PersistEnv)
    (content priv pub : String) :
    (∀ e, env.uploadError = some e →
      handleSign C env content priv pub =
        ⟨[.uploadArtifact], none, none, none, some (.upload e)⟩) ∧
    (∀ e sig, env.uploadError = none → signData C content priv = .ok sig →
      env.docInsertError = some e →
      handleSign C env content priv pub =
        ⟨[.uploadArtifact, .insertDocument], none, none, none, some (.docInsert e)⟩) ∧
    (∀ e sig, env.uploadError = none → signData C content priv = .ok sig →
      env.docInsertError = none → env.sigInsertError = some e →
      handleSign C env content priv pub =
        ⟨[.uploadArtifact, .insertDocument, .insertSignature],
         some ⟨generateHash content⟩, none, none, some (.sigInsert e)⟩) ∧
    PersistStep.removeArtifact ∉ (handleSign C env content priv pub).steps := by
  refine ⟨?_, ?_, ?_, ?_⟩
  · intro e he
    unfold handleSign
    rw [he]
  · intro e sig hu hs hd
    unfold handleSign
    rw [hu, hs, hd]
  · intro e sig hu hs hd hsg
    unfold handleSign
    rw [hu, hs, hd, hsg]
  · unfold handleSign
    rcases env.uploadError with _ | e
    · rcases signData C content priv with ce | sig
      · simp
      · rcases env.docInsertError with _ | e
        · rcases env.sigInsertError with _ | e
          · rcases env.auditInsertError with _ | e <;> simp
          · simp
        · simp
    · simp

/-- A persistence layer whose document insert fails. -/
def envDocFail : PersistEnv := ⟨none, some "insert failed", none, none⟩

set_option maxRecDepth 20000 in
/-- Witness for C9: the failed document insert stops the chain after two
steps, and no rollback step appears. -/
theorem handleSign_chain_aborts_witness :
    handleSign ToyCrypto envDocFail "doc" (arrayBufferToBase64 [8, 1]) "pub" =
      ⟨[.uploadArtifact, .insertDocument], none, none, none,
       some (.docInsert "insert failed")⟩ ∧
    PersistStep.removeArtifact ∉
      (handleSign ToyCrypto envDocFail "doc" (arrayBufferToBase64 [8, 1]) "pub").steps :=
  ⟨(handleSign_chain_aborts ToyCrypto envDocFail "doc" (arrayBufferToBase64 [8, 1]) "pub").2.1
     "insert failed" "ZG9j" rfl rfl rfl,
   (handleSign_chain_aborts ToyCrypto envDocFail "doc" (arrayBufferToBase64 [8, 1]) "pub").2.2.2⟩

/-- **C4.** Signing passes the raw UTF-8 bytes of the content directly to
the platform signing primitive (which performs the SHA-256 hashing
internally per the RSASSA-PKCS1-v1_5 contract): `signData`'s result is the
base64 of the primitive's signature over `utf8Encode content`, never over a
digest; the digest `generateHash content` computed at sign time is computed
separately and is only stored, in the `file_hash` and `signature_hash`
columns. -/
theorem handleSign_signs_raw_content_bytes (C : SubtleCrypto) (env : PersistEnv)
    (content priv pub : String) (kb : List Nat) (k : C.PrivateKey) (sigBytes : List Nat)
    (hdec : base64ToArrayBuffer priv = some kb)
    (himp : C.importKeyPkcs8 kb = some k)
    (hsig : C.sign k (utf8Encode content) = .ok sigBytes)
    (henv : env.uploadError = none ∧ env.docInsertError = none ∧
      env.sigInsertError = none ∧ env.auditInsertError = none) :
    signData C content priv = .ok (arrayBufferToBase64 sigBytes) ∧
    (handleSign C env content priv pub).signatureRow =
      some ⟨arrayBufferToBase64 sigBytes, generateHash content⟩ ∧
    (handleSign C env content priv pub).documentRow = some ⟨generateHash content⟩ ∧
    (handleSign C env content priv pub).auditRow = some ⟨pub⟩ := by
  obtain ⟨hu, hd, hsg, ha⟩ := henv
  have hsdata : signData C content priv = .ok (arrayBufferToBase64 sigBytes) := by
    simp [signData, hdec, himp, hsig, except_ok_bind, except_error_bind, except_pure_eq]
  refine ⟨hsdata, ?_, ?_, ?_⟩ <;>
    · unfold handleSign
      rw [hu, hsdata, hd, hsg, ha]

set_option maxRecDepth 20000 in
/-- Witness for C4 on the toy platform: the stored signature is the base64
of the raw content bytes' signature, the digest appears only in the hash
columns. -/
theorem handleSign_signs_raw_content_bytes_witness :
    signData ToyCrypto "doc" (arrayBufferToBase64 [8, 1]) =
      .ok (arrayBufferToBase64 [100, 111, 99]) ∧
    (handleSign ToyCrypto ⟨none, none, none, none⟩ "doc"
        (arrayBufferToBase64 [8, 1]) "pub").signatureRow =
      some ⟨arrayBufferToBase64 [100, 111, 99], generateHash "doc"⟩ ∧
    (handleSign ToyCrypto ⟨none, none, none, none⟩ "doc"
        (arrayBufferToBase64 [8, 1]) "pub").documentRow = some ⟨generateHash "doc"⟩ ∧
    (handleSign ToyCrypto ⟨none, none, none, none⟩ "doc"
        (arrayBufferToBase64 [8, 1]) "pub").auditRow = some ⟨"pub"⟩ :=
  handleSign_signs_raw_content_bytes ToyCrypto ⟨none, none, none, none⟩ "doc"
    (arrayBufferToBase64 [8, 1]) "pub" [8, 1] [8, 1] [100, 111, 99]
    rfl rfl rfl ⟨rfl, rfl, rfl, rfl⟩

/-- **C8.** `generateHash` is a pure, total function of the exact input
byte sequence: the digest is always 64 characters, every character is a
lowercase hexadecimal digit, two inputs with the same UTF-8 bytes hash
identically (determinism over the exact byte sequence), and no trimming is
applied — a single added space changes the digest (so the digest is the
SHA-256 of the exact bytes, validated against the FIPS 180-4 vectors in
`generateHash_abc` / `generateHash_empty`). -/
theorem generateHash_pure_hex64_exact (s : String) :
    (generateHash s).length = 64 ∧
    (∀ c ∈ (generateHash s).toList, c ∈ hexDigits) ∧
    (∀ t, utf8Encode s = utf8Encode t → generateHash s = generateHash t) ∧
    generateHash " a" ≠ generateHash "a" := by
  refine ⟨?_, ?_, ?_, ?_⟩
  · show (String.mk ((sha256 (utf8Encode s)).map byteToHex).flatten).length = 64
    have h32 := sha256_length (utf8Encode s)
    have hstr : (String.mk ((sha256 (utf8Encode s)).map byteToHex).flatten).length =
        (((sha256 (utf8Encode s)).map byteToHex).flatten).length := rfl
    rw [hstr, hexFlatten_length, h32]
  · intro c hc
    have hc' : c ∈ ((sha256 (utf8Encode s)).map byteToHex).flatten := hc
    rw [List.mem_flatten] at hc'
    obtain ⟨l, hl, hcl⟩ := hc'
    rw [List.mem_map] at hl
    obtain ⟨b, _, hb⟩ := hl
    subst hb
    simp only [byteToHex, List.mem_cons, List.not_mem_nil, or_false] at hcl
    rcases hcl with rfl | rfl <;> exact hexDigit_mem _
  · intro t h
    unfold generateHash
    rw [h]
  · set_option maxRecDepth 20000 in decide

set_option maxRecDepth 20000 in
/-- Witness for C8's determinism clause at equal-byte inputs. -/
theorem generateHash_pure_hex64_exact_witness :
    generateHash "abc" = generateHash "abc" :=
  (generateHash_pure_hex64_exact "abc").2.2.1 "abc" rfl
